import Mathlib

/-!
Verification development for the data-pipe repository: a shallow embedding of
the field-mapping transformation engine (pkg/transform/fieldmapper.go), the
pipeline engine (pkg/pipeline/pipeline.go) and the reconciler
(cmd/data-pipe/main.go, pkg/source/mongodb.go), together with theorems that
settle the frozen specification claims.

Dynamic Go values (interface values held in map(string)interface) are
modelled by the inductive type Value; Go maps keyed by strings are modelled
by association lists with overwrite-on-insert, which reproduces the map
semantics the code relies on (last write wins, lookup of the single binding).
-/

namespace DataPipe

/-- Model of a dynamic Go value as stored in an event data map: nil, string,
int, float64 (modelled by a rational), bool, time.Time (modelled by broken
down components) or a nested document. -/
inductive Value where
  | vNull
  | vStr (s : String)
  | vInt (n : Int)
  | vFloat (q : Rat)
  | vBool (b : Bool)
  | vTime (year month day hour minute second : Nat) (offsetMin : Int)
  | vMap (fields : List (String × Value))

/-- Lookup in an association list modelling a Go map: returns the first
binding for the key (with overwrite-on-insert there is at most one). -/
def assocLookup {α : Type} : List (String × α) → String → Option α
  | [], _ => none
  | (k2, v) :: rest, k => if k2 = k then some v else assocLookup rest k

/-- Insert into an association list modelling a Go map assignment: replaces
the existing binding for the key, otherwise appends. -/
def assocInsert {α : Type} : List (String × α) → String → α → List (String × α)
  | [], k, v => [(k, v)]
  | (k2, v2) :: rest, k, v =>
      if k2 = k then (k, v) :: rest else (k2, v2) :: assocInsert rest k v

/-- Decimal digit value of a character. -/
def digitVal (c : Char) : Nat := c.toNat - 48

/-- Reads a nonempty prefix of decimal digits; fails when the first
character is not a digit (models the digit scanning of fmt verbs). -/
def digitsPrefix (cs : List Char) : Option Nat :=
  match cs.takeWhile Char.isDigit with
  | [] => none
  | ds => some (ds.foldl (fun acc c => 10 * acc + digitVal c) 0)

/-- Model of fmt.Sscanf with the verb for a decimal integer: skips leading
whitespace, reads an optional sign and at least one digit; trailing input is
ignored as Sscanf ignores unconsumed input. -/
def scanInt (s : String) : Option Int :=
  let cs := s.toList.dropWhile Char.isWhitespace
  match cs with
  | '-' :: rest => (digitsPrefix rest).map (fun n => -(n : Int))
  | '+' :: rest => (digitsPrefix rest).map (fun n => (n : Int))
  | _ => (digitsPrefix cs).map (fun n => (n : Int))

/-- Model of fmt.Sscanf with the floating point verb, restricted to the
plain decimal fragment (optional sign, digits, optional fractional part);
the exotic float syntaxes accepted by fmt (exponents, inf, nan, hex) are
outside the data this repository manipulates and are modelled as failures. -/
def scanFloat (s : String) : Option Rat :=
  let cs := s.toList.dropWhile Char.isWhitespace
  let core := fun (cs2 : List Char) =>
    let ip := cs2.takeWhile Char.isDigit
    let rest := cs2.dropWhile Char.isDigit
    match rest with
    | '.' :: frac =>
        let fp := frac.takeWhile Char.isDigit
        if ip.isEmpty ∧ fp.isEmpty then none
        else
          let ipv := ip.foldl (fun acc c => 10 * acc + digitVal c) 0
          let fpv := fp.foldl (fun acc c => 10 * acc + digitVal c) 0
          some (mkRat (ipv * 10 ^ fp.length + fpv) (10 ^ fp.length))
    | _ =>
        match ip with
        | [] => none
        | _ => some (mkRat (ip.foldl (fun acc c => 10 * acc + digitVal c) 0) 1)
  match cs with
  | '-' :: rest => (core rest).map (fun q => -q)
  | '+' :: rest => core rest
  | _ => core cs

/-- Model of strconv.ParseBool: accepts exactly the twelve literal forms. -/
def parseBoolGo (s : String) : Option Bool :=
  if s = "1" ∨ s = "t" ∨ s = "T" ∨ s = "true" ∨ s = "TRUE" ∨ s = "True" then some true
  else if s = "0" ∨ s = "f" ∨ s = "F" ∨ s = "false" ∨ s = "FALSE" ∨ s = "False" then some false
  else none

/-- Number of days in a month, with leap years, for date validation as
performed by time.Parse. -/
def daysInMonth (y m : Nat) : Nat :=
  if m = 2 then
    if y % 4 = 0 ∧ (y % 100 ≠ 0 ∨ y % 400 = 0) then 29 else 28
  else if m = 4 ∨ m = 6 ∨ m = 9 ∨ m = 11 then 30
  else 31

/-- Validates date and time components the way time.Parse does and builds
the corresponding Value. -/
def mkTime (y mo d h mi se : Nat) (off : Int) : Option Value :=
  if 1 ≤ mo ∧ mo ≤ 12 ∧ 1 ≤ d ∧ d ≤ daysInMonth y mo ∧ h ≤ 23 ∧ mi ≤ 59 ∧ se ≤ 59 then
    some (.vTime y mo d h mi se off)
  else none

/-- Reads two digit characters as a number. -/
def twoDigits (a b : Char) : Option Nat :=
  if a.isDigit ∧ b.isDigit then some (10 * digitVal a + digitVal b) else none

/-- Reads four digit characters as a number. -/
def fourDigits (a b c d : Char) : Option Nat :=
  if a.isDigit ∧ b.isDigit ∧ c.isDigit ∧ d.isDigit then
    some (1000 * digitVal a + 100 * digitVal b + 10 * digitVal c + digitVal d)
  else none

/-- Model of time.Parse with the RFC3339 layout (the first two layouts the
source tries are both this layout): date, a T separator, time, then Z or a
numeric offset. Fractional seconds are outside the modelled fragment. -/
def parseRFC3339 (cs : List Char) : Option Value :=
  match cs with
  | y1 :: y2 :: y3 :: y4 :: '-' :: m1 :: m2 :: '-' :: d1 :: d2 :: 'T' ::
      h1 :: h2 :: ':' :: n1 :: n2 :: ':' :: s1 :: s2 :: rest =>
    match fourDigits y1 y2 y3 y4, twoDigits m1 m2, twoDigits d1 d2,
          twoDigits h1 h2, twoDigits n1 n2, twoDigits s1 s2 with
    | some y, some mo, some d, some h, some mi, some se =>
      match rest with
      | ['Z'] => mkTime y mo d h mi se 0
      | ['+', o1, o2, ':', o3, o4] =>
        match twoDigits o1 o2, twoDigits o3 o4 with
        | some oh, some om => mkTime y mo d h mi se ((oh * 60 + om : Nat))
        | _, _ => none
      | ['-', o1, o2, ':', o3, o4] =>
        match twoDigits o1 o2, twoDigits o3 o4 with
        | some oh, some om => mkTime y mo d h mi se (-((oh * 60 + om : Nat) : Int))
        | _, _ => none
      | _ => none
    | _, _, _, _, _, _ => none
  | _ => none

/-- Model of time.Parse with the layout of a date, a space and a time. -/
def parseDateTimeSpace (cs : List Char) : Option Value :=
  match cs with
  | [y1, y2, y3, y4, '-', m1, m2, '-', d1, d2, ' ',
     h1, h2, ':', n1, n2, ':', s1, s2] =>
    match fourDigits y1 y2 y3 y4, twoDigits m1 m2, twoDigits d1 d2,
          twoDigits h1 h2, twoDigits n1 n2, twoDigits s1 s2 with
    | some y, some mo, some d, some h, some mi, some se => mkTime y mo d h mi se 0
    | _, _, _, _, _, _ => none
  | _ => none

/-- Model of time.Parse with the date only layout. -/
def parseDateOnly (cs : List Char) : Option Value :=
  match cs with
  | [y1, y2, y3, y4, '-', m1, m2, '-', d1, d2] =>
    match fourDigits y1 y2 y3 y4, twoDigits m1 m2, twoDigits d1 d2 with
    | some y, some mo, some d => mkTime y mo d 0 0 0 0
    | _, _, _ => none
  | _ => none

/-- Tries the date layouts in the order of the source (the first two entries
of the layout slice are the same RFC3339 layout), returning the first
successful parse. -/
def tryParseDate (s : String) : Option Value :=
  let cs := s.toList
  match parseRFC3339 cs with
  | some t => some t
  | none =>
    match parseDateTimeSpace cs with
    | some t => some t
    | none => parseDateOnly cs

/-- Pads a number to two decimal digits. -/
def pad2 (n : Nat) : String :=
  if n < 10 then "0" ++ toString n else toString n

/-- Pads a number to four decimal digits. -/
def pad4 (n : Nat) : String :=
  if n < 10 then "000" ++ toString n
  else if n < 100 then "00" ++ toString n
  else if n < 1000 then "0" ++ toString n
  else toString n

mutual

/-- Model of fmt.Sprintf with the default verb on a dynamic value, covering
the shapes this repository stores in event data. Maps are rendered with
keys in insertion order; fmt sorts keys, but no claim depends on the map
rendering. -/
def goSprintV : Value → String
  | .vNull => "<nil>"
  | .vStr s => s
  | .vInt n => toString n
  | .vFloat q => toString q.num ++ (if q.den = 1 then "" else "/" ++ toString q.den)
  | .vBool b => if b then "true" else "false"
  | .vTime y mo d h mi se off =>
      pad4 y ++ "-" ++ pad2 mo ++ "-" ++ pad2 d ++ " " ++
      pad2 h ++ ":" ++ pad2 mi ++ ":" ++ pad2 se ++ " " ++ toString off
  | .vMap fields => "map[" ++ goSprintFields fields ++ "]"

/-- Renders the entries of a nested document for goSprintV. -/
def goSprintFields : List (String × Value) → String
  | [] => ""
  | [(k, v)] => k ++ ":" ++ goSprintV v
  | (k, v) :: rest => k ++ ":" ++ goSprintV v ++ " " ++ goSprintFields rest

end

/-- Lowercases one character; the data of this repository is ASCII, so the
ASCII case fold models strings.ToLower faithfully on it. -/
def charLower (c : Char) : Char :=
  if 'A' ≤ c ∧ c ≤ 'Z' then Char.ofNat (c.toNat + 32) else c

/-- Uppercases one character (ASCII case fold, see charLower). -/
def charUpper (c : Char) : Char :=
  if 'a' ≤ c ∧ c ≤ 'z' then Char.ofNat (c.toNat - 32) else c

/-- Model of strings.ToLower. -/
def goToLower (s : String) : String := String.mk (s.toList.map charLower)

/-- Model of strings.ToUpper. -/
def goToUpper (s : String) : String := String.mk (s.toList.map charUpper)

/-- Model of strings.TrimSpace: removes leading and trailing whitespace. -/
def goTrimSpace (s : String) : String :=
  String.mk (((s.toList.dropWhile Char.isWhitespace).reverse.dropWhile
    Char.isWhitespace).reverse)

/-- Splits a character list into maximal runs separated by characters the
predicate accepts, keeping empty runs. -/
def splitRuns (p : Char → Bool) : List Char → List Char → List (List Char)
  | acc, [] => [acc.reverse]
  | acc, c :: rest =>
    if p c then acc.reverse :: splitRuns p [] rest
    else splitRuns p (c :: acc) rest

/-- Splits a string into whitespace separated fields, modelling
strings.Fields. -/
def goFields (s : String) : List String :=
  ((splitRuns Char.isWhitespace [] s.toList).filter (fun w => ¬w.isEmpty)).map String.mk

/-- Model of strings.Split with the dot separator, used for nested paths. -/
def splitDots (s : String) : List String :=
  (splitRuns (fun c => c = '.') [] s.toList).map String.mk

/-- Capitalizes the first character of a word (the word is already
lowercased by the caller, as in the source). -/
def capitalizeWord (w : String) : String :=
  match w.toList with
  | [] => ""
  | c :: rest => String.mk (charUpper c :: rest)

/-- Model of the titlecase branch of formatValue: lowercase the input, then
capitalize the first character of each whitespace delimited word and join
with single spaces. -/
def titleCase (s : String) : String :=
  String.intercalate " " ((goFields (goToLower s)).map capitalizeWord)

/-- Model of FieldMapper.formatValue (fieldmapper.go): formats a value
according to the format string; unknown formats fall through to the default
branch, which returns the value unchanged. -/
def formatValue (value : Value) (format : String) : Except String Value :=
  if format = "" then .ok value
  else
    let strValue := goSprintV value
    if format = "string" then .ok (.vStr strValue)
    else if format = "int" then
      match scanInt strValue with
      | some n => .ok (.vInt n)
      | none => .error ("cannot convert to int: " ++ strValue)
    else if format = "float" then
      match scanFloat strValue with
      | some q => .ok (.vFloat q)
      | none => .error ("cannot convert to float: " ++ strValue)
    else if format = "date" ∨ format = "datetime" then
      match tryParseDate strValue with
      | some t => .ok t
      | none => .error ("cannot parse date: " ++ strValue)
    else if format = "uppercase" then .ok (.vStr (goToUpper strValue))
    else if format = "lowercase" then .ok (.vStr (goToLower strValue))
    else if format = "trim" then .ok (.vStr (goTrimSpace strValue))
    else if format = "titlecase" then .ok (.vStr (titleCase strValue))
    else if format = "bool" ∨ format = "boolean" then
      match parseBoolGo strValue with
      | some b => .ok (.vBool b)
      | none =>
        let lower := goToLower (goTrimSpace strValue)
        if lower = "yes" ∨ lower = "y" ∨ lower = "1" then .ok (.vBool true)
        else if lower = "no" ∨ lower = "n" ∨ lower = "0" then .ok (.vBool false)
        else .error ("cannot convert to bool: " ++ strValue)
    else .ok value

/-!
Model of the Go regexp fragment the field mapper uses. The source compiles
extract patterns with regexp.Compile and applies FindStringSubmatch; the
patterns appearing in this repository (configs and tests) use literals,
character classes with optional negation and ranges, the dot, anchors,
groups, escapes and the greedy quantifiers. Go regexp uses leftmost first
matching with greedy quantifier priority, reproduced here by a fuelled
backtracking matcher over that fragment; pattern syntax outside the
fragment is reported as a compile failure.
-/

/-- Abstract syntax of the modelled regexp fragment. -/
inductive RE where
  | emptyR
  | clsR (neg : Bool) (chars : List Char) (ranges : List (Char × Char))
  | anyR
  | bolR
  | eolR
  | seqR (a b : RE)
  | starR (a : RE)
  | plusR (a : RE)
  | optR (a : RE)
  | groupR (idx : Nat) (a : RE)

/-- Reads the body of a bracket character class up to the closing bracket,
returning accepted single characters and ranges plus the remaining input. -/
def readClassBody (fuel : Nat) (cs : List Char) :
    Except String (List Char × List (Char × Char) × List Char) :=
  match fuel with
  | 0 => .error "class fuel exhausted"
  | fuel + 1 =>
    match cs with
    | [] => .error "missing closing bracket in character class"
    | ']' :: rest => .ok ([], [], rest)
    | '\\' :: e :: rest =>
      match readClassBody fuel rest with
      | .error msg => .error msg
      | .ok (chars, ranges, rem) =>
        if e = 'd' then .ok (chars, ('0', '9') :: ranges, rem)
        else .ok (e :: chars, ranges, rem)
    | a :: '-' :: b :: rest =>
      if b = ']' then
        match readClassBody fuel (b :: rest) with
        | .error msg => .error msg
        | .ok (chars, ranges, rem) => .ok (a :: '-' :: chars, ranges, rem)
      else
        match readClassBody fuel rest with
        | .error msg => .error msg
        | .ok (chars, ranges, rem) => .ok (chars, (a, b) :: ranges, rem)
    | a :: rest =>
      match readClassBody fuel rest with
      | .error msg => .error msg
      | .ok (chars, ranges, rem) => .ok (a :: chars, ranges, rem)

/-- Applies a postfix quantifier to the preceding atom when present. -/
def applyQuantifier (a : RE) (cs : List Char) : RE × List Char :=
  match cs with
  | '+' :: rest => (.plusR a, rest)
  | '*' :: rest => (.starR a, rest)
  | '?' :: rest => (.optR a, rest)
  | _ => (a, cs)

/-- Recursive descent reading of a pattern sequence; group indices are
assigned in order of the opening parentheses, as Go numbers subexpressions.
Returns the expression, the remaining input and the next group index. -/
def readSeq (fuel : Nat) (cs : List Char) (gi : Nat) :
    Except String (RE × List Char × Nat) :=
  match fuel with
  | 0 => .error "pattern fuel exhausted"
  | fuel + 1 =>
    match cs with
    | [] => .ok (.emptyR, [], gi)
    | ')' :: _ => .ok (.emptyR, cs, gi)
    | c :: rest =>
      let atomRes : Except String (RE × List Char × Nat) :=
        if c = '(' then
          match readSeq fuel rest (gi + 1) with
          | .error msg => .error msg
          | .ok (inner, rem, gi2) =>
            match rem with
            | ')' :: rem2 => .ok (.groupR gi inner, rem2, gi2)
            | _ => .error "missing closing parenthesis"
        else if c = '[' then
          match rest with
          | '^' :: rest2 =>
            match readClassBody fuel rest2 with
            | .error msg => .error msg
            | .ok (chars, ranges, rem) => .ok (.clsR true chars ranges, rem, gi)
          | _ =>
            match readClassBody fuel rest with
            | .error msg => .error msg
            | .ok (chars, ranges, rem) => .ok (.clsR false chars ranges, rem, gi)
        else if c = '.' then .ok (.anyR, rest, gi)
        else if c = '^' then .ok (.bolR, rest, gi)
        else if c = '$' then .ok (.eolR, rest, gi)
        else if c = '\\' then
          match rest with
          | [] => .error "trailing backslash"
          | e :: rest2 =>
            if e = 'd' then .ok (.clsR false [] [('0', '9')], rest2, gi)
            else if e = 'D' ∨ e = 'w' ∨ e = 'W' ∨ e = 's' ∨ e = 'S' ∨ e = 'b' ∨ e = 'B' then
              .error "escape outside the modelled fragment"
            else .ok (.clsR false [e] [], rest2, gi)
        else if c = '|' ∨ c = '+' ∨ c = '*' ∨ c = '?' ∨ c = ']' ∨ c = '\x7b' ∨ c = '\x7d' then
          .error "pattern syntax outside the modelled fragment"
        else .ok (.clsR false [c] [], rest, gi)
      match atomRes with
      | .error msg => .error msg
      | .ok (atom, rem, gi2) =>
        let (atom2, rem2) := applyQuantifier atom rem
        match readSeq fuel rem2 gi2 with
        | .error msg => .error msg
        | .ok (tail, rem3, gi3) => .ok (.seqR atom2 tail, rem3, gi3)

/-- Model of regexp.Compile on the modelled fragment: parses the whole
pattern or reports an error (invalid patterns fail, as in Go). -/
def compileRE (pattern : String) : Except String RE :=
  let cs := pattern.toList
  match readSeq (cs.length * 2 + 8) cs 1 with
  | .error msg => .error msg
  | .ok (r, [], _) => .ok r
  | .ok (_, _ :: _, _) => .error "unbalanced closing parenthesis"

/-- Number of capturing groups of a compiled expression. -/
def countGroups : RE → Nat
  | .seqR a b => countGroups a + countGroups b
  | .starR a => countGroups a
  | .plusR a => countGroups a
  | .optR a => countGroups a
  | .groupR _ a => countGroups a + 1
  | _ => 0

/-- Membership test of a character in a class. -/
def clsMatch (neg : Bool) (chars : List Char) (ranges : List (Char × Char)) (c : Char) : Bool :=
  let inSet := chars.contains c || ranges.any (fun r => decide (r.1 ≤ c) && decide (c ≤ r.2))
  if neg then !inSet else inSet

/-- Backtracking matcher with continuation; pos is the number of characters
consumed so far from the full input, rem the remaining characters, and the
group map records captured spans as pairs of positions. All alternatives are
tried in greedy order, reproducing the leftmost first semantics of Go
regexp on the modelled fragment. -/
def mre (fuel : Nat) (r : RE) (pos : Nat) (rem : List Char)
    (gs : List (Nat × (Nat × Nat)))
    (k : Nat → List Char → List (Nat × (Nat × Nat)) → Option (Nat × List (Nat × (Nat × Nat)))) :
    Option (Nat × List (Nat × (Nat × Nat))) :=
  match fuel with
  | 0 => none
  | fuel + 1 =>
    match r with
    | .emptyR => k pos rem gs
    | .clsR neg chars ranges =>
      match rem with
      | [] => none
      | c :: rest => if clsMatch neg chars ranges c then k (pos + 1) rest gs else none
    | .anyR =>
      match rem with
      | [] => none
      | c :: rest => if c = '\n' then none else k (pos + 1) rest gs
    | .bolR => if pos = 0 then k pos rem gs else none
    | .eolR => if rem.isEmpty then k pos rem gs else none
    | .seqR a b => mre fuel a pos rem gs (fun p2 r2 g2 => mre fuel b p2 r2 g2 k)
    | .starR a =>
      match mre fuel a pos rem gs (fun p2 r2 g2 =>
          if pos < p2 then mre fuel (.starR a) p2 r2 g2 k else none) with
      | some res => some res
      | none => k pos rem gs
    | .plusR a => mre fuel a pos rem gs (fun p2 r2 g2 => mre fuel (.starR a) p2 r2 g2 k)
    | .optR a =>
      match mre fuel a pos rem gs k with
      | some res => some res
      | none => k pos rem gs
    | .groupR i a =>
      mre fuel a pos rem gs (fun p2 r2 g2 =>
        k p2 r2 ((i, (pos, p2)) ::
          g2.filter (fun e => decide (e.1 ≠ i))))

/-- Size of an expression, used to bound the matcher fuel. -/
def reSize : RE → Nat
  | .seqR a b => reSize a + reSize b + 1
  | .starR a => reSize a + 1
  | .plusR a => reSize a + 1
  | .optR a => reSize a + 1
  | .groupR _ a => reSize a + 1
  | _ => 1

/-- Attempts a match at each start position from left to right, returning
the first position where the expression matches, with the end position and
the captured groups. -/
def findFrom (fuel : Nat) (r : RE) (pos : Nat) (rem : List Char) :
    Option (Nat × Nat × List (Nat × (Nat × Nat))) :=
  match mre fuel r pos rem [] (fun p2 _ g2 => some (p2, g2)) with
  | some (e, gs) => some (pos, e, gs)
  | none =>
    match rem with
    | [] => none
    | _ :: rest => findFrom fuel r (pos + 1) rest

/-- Extracts the substring between two positions of the input. -/
def sliceStr (cs : List Char) (b e : Nat) : String :=
  String.mk ((cs.drop b).take (e - b))

/-- Lookup of a captured group span by group index. -/
def groupLookup : List (Nat × (Nat × Nat)) → Nat → Option (Nat × Nat)
  | [], _ => none
  | (i2, sp) :: rest, i => if i2 = i then some sp else groupLookup rest i

/-- Model of Regexp.FindStringSubmatch: an empty list when there is no
match, otherwise the full match followed by one entry per capturing group
(the empty string for a group that did not participate). -/
def findStringSubmatch (r : RE) (s : String) : List String :=
  let cs := s.toList
  let fuel := (cs.length + 2) * (reSize r + 2) + 16
  match findFrom fuel r 0 cs with
  | none => []
  | some (b, e, gs) =>
    sliceStr cs b e ::
      (List.range (countGroups r)).map (fun i =>
        match groupLookup gs (i + 1) with
        | some (gb, ge) => sliceStr cs gb ge
        | none => "")

/-!
Embedding of the field mapper (pkg/transform/fieldmapper.go) and of the
event type (pkg/pipeline/types.go).
-/

/-- Model of pipeline.Event: a canonical change record. The wall clock
timestamp is abstracted to a number; no claim depends on it. -/
structure Event where
  id : String
  timestamp : Nat
  operation : String
  source : String
  database : String
  collection : String
  data : List (String × Value)
  before : Option (List (String × Value))

/-- Model of transform.FieldMapping: one declarative mapping rule. -/
structure FieldMapping where
  source : String
  destination : String
  format : String
  default : String
  required : Bool
  extract : String
  nestedPath : String

/-- Model of transform.FieldMapperConfig. -/
structure FieldMapperConfig where
  mappings : List FieldMapping
  includeAll : Bool
  excludeFields : List String
  strictMode : Bool

/-- Model of transform.FieldMapper: the configuration plus the compiled
extract patterns, keyed by the source field name exactly as in the source
(fieldmapper.go line 64), so that two rules naming the same source share
one extractor slot. -/
structure FieldMapper where
  config : FieldMapperConfig
  extractors : List (String × RE)

/-- Model of the extractor compilation loop of NewFieldMapperWithLogger:
for each mapping with a nonempty extract pattern, compile it and store it
in the map keyed by the source field, overwriting any earlier entry for
the same source. -/
def buildExtractors : List FieldMapping → List (String × RE) → Except String (List (String × RE))
  | [], acc => .ok acc
  | m :: rest, acc =>
    if m.extract = "" then buildExtractors rest acc
    else
      match compileRE m.extract with
      | .error e => .error ("invalid extract pattern for field " ++ m.source ++ ": " ++ e)
      | .ok r => buildExtractors rest (assocInsert acc m.source r)

/-- Model of NewFieldMapper / NewFieldMapperWithLogger: compiles all
extract patterns up front; an invalid pattern fails construction. -/
def newFieldMapper (config : FieldMapperConfig) : Except String FieldMapper :=
  match buildExtractors config.mappings [] with
  | .error e => .error e
  | .ok ex => .ok { config := config, extractors := ex }

/-- Model of the nested path walk of getFieldValue: each path segment must
resolve inside a nested document; a missing segment or a non document
parent yields not found. -/
def getNestedValue : Value → List String → Option Value
  | cur, [] => some cur
  | .vMap m, part :: rest =>
    match assocLookup m part with
    | some v => getNestedValue v rest
    | none => none
  | _, _ :: _ => none

/-- Model of FieldMapper.getFieldValue: with no nested path the source key
is read directly; otherwise the dot separated path is walked from the root
of the data document. A present key bound to nil is returned as the nil
value, which the caller treats like an absent key. -/
def getFieldValue (data : List (String × Value)) (source nestedPath : String) : Option Value :=
  if nestedPath = "" then assocLookup data source
  else getNestedValue (.vMap data) (splitDots nestedPath)

/-- Extraction step of Transform for one rule: when an extractor is
registered for the rule source field, match the string form of the value;
a captured group wins over the full match; on no match the rule aborts the
call under strict mode when required, otherwise it is skipped (an inner
none means the rule produces no output key). -/
def extractStep (cfg : FieldMapperConfig) (m : FieldMapping) (extractors : List (String × RE))
    (value : Value) : Except String (Option Value) :=
  match assocLookup extractors m.source with
  | none => .ok (some value)
  | some r =>
    let strValue := goSprintV value
    let found := findStringSubmatch r strValue
    if found.length > 1 then .ok (some (.vStr (found.getD 1 "")))
    else if found.length > 0 then .ok (some (.vStr (found.getD 0 "")))
    else if m.required ∧ cfg.strictMode then
      .error ("extraction pattern failed for field " ++ m.source)
    else .ok none

/-- Missing value handling of Transform for one rule: an absent key or a
nil value aborts under strict mode when the rule is required, otherwise
the default is substituted when nonempty and the rule is skipped when not. -/
def resolveStep (cfg : FieldMapperConfig) (m : FieldMapping) (data : List (String × Value)) :
    Except String (Option Value) :=
  match getFieldValue data m.source m.nestedPath with
  | none =>
    if m.required ∧ cfg.strictMode then
      .error ("required field " ++ m.source ++ " is missing")
    else if m.default ≠ "" then .ok (some (.vStr m.default))
    else .ok none
  | some .vNull =>
    if m.required ∧ cfg.strictMode then
      .error ("required field " ++ m.source ++ " is missing")
    else if m.default ≠ "" then .ok (some (.vStr m.default))
    else .ok none
  | some v => .ok (some v)

/-- Formatting step of Transform for one rule: a formatting error aborts
the call under strict mode and otherwise skips the rule. -/
def formatStep (cfg : FieldMapperConfig) (m : FieldMapping) (value : Value) :
    Except String (Option Value) :=
  match formatValue value m.format with
  | .ok v => .ok (some v)
  | .error e =>
    if cfg.strictMode then .error ("formatting error for field " ++ m.source ++ ": " ++ e)
    else .ok none

/-- Model of the per rule loop of FieldMapper.Transform: each rule reads
from the original data snapshot, runs the resolve, extract and format
steps, and writes its final value under the destination name (falling back
to the source name) into the output under construction; a strict mode
abort propagates as an error. -/
def applyMappings (cfg : FieldMapperConfig) (extractors : List (String × RE))
    (data : List (String × Value)) :
    List FieldMapping → List (String × Value) → Except String (List (String × Value))
  | [], newData => .ok newData
  | m :: rest, newData =>
    match resolveStep cfg m data with
    | .error e => .error e
    | .ok none => applyMappings cfg extractors data rest newData
    | .ok (some v0) =>
      match extractStep cfg m extractors v0 with
      | .error e => .error e
      | .ok none => applyMappings cfg extractors data rest newData
      | .ok (some v1) =>
        match formatStep cfg m v1 with
        | .error e => .error e
        | .ok none => applyMappings cfg extractors data rest newData
        | .ok (some v2) =>
          let destName := if m.destination = "" then m.source else m.destination
          applyMappings cfg extractors data rest (assocInsert newData destName v2)

/-- One iteration of the unmapped field copy loop of Transform: an
original entry is written into the output unless its key is a mapping
source or excluded; there is no check against keys the rules produced. -/
def includeStep (cfg : FieldMapperConfig) (nd : List (String × Value)) (kv : String × Value) :
    List (String × Value) :=
  if cfg.mappings.any (fun m => m.source = kv.1) || cfg.excludeFields.any (fun f => f = kv.1) then
    nd
  else assocInsert nd kv.1 kv.2

/-- Model of the unmapped field copy of Transform: when includeAll is set,
every original entry runs through the copy loop. -/
def includeUnmapped (cfg : FieldMapperConfig) (data newData : List (String × Value)) :
    List (String × Value) :=
  if cfg.includeAll then data.foldl (includeStep cfg) newData
  else newData

/-- Model of FieldMapper.Transform: applies the rules in order against the
original data, then the unmapped field copy; on success the event data is
replaced wholesale by the new output, on a strict mode abort the original
event is returned together with the error message (the Go method returns
the pair of the event and a possibly nil error). -/
def fieldMapperTransform (fm : FieldMapper) (event : Event) : Event × Option String :=
  match applyMappings fm.config fm.extractors event.data fm.config.mappings [] with
  | .error e => (event, some e)
  | .ok newData =>
    ({ event with data := includeUnmapped fm.config event.data newData }, none)

/-- Model of transform.PassThroughTransformer: returns the event unchanged
with no error. -/
def passThroughTransform (event : Event) : Event × Option String := (event, none)

/-!
Embedding of the pipeline engine (pkg/pipeline/pipeline.go) and of the
reconciler (cmd/data-pipe/main.go together with the query construction of
pkg/source/mongodb.go). The concurrent stages are sequentialized: the
claims are about the value Run returns, the events handed to Sink.Write
and the decision logic, all of which are deterministic functions of the
streams, modelled here as lists.
-/

/-- Model of the transform stage of Pipeline.Run: each event is passed to
the transformer when one is configured; an event whose transformation
reports an error is dropped and logged, the others are forwarded in order. -/
def transformEventList (tr : Option (Event → Event × Option String)) (events : List Event) :
    List Event :=
  match tr with
  | none => events
  | some f =>
    events.filterMap (fun e =>
      match f e with
      | (e2, none) => some e2
      | (_, some _) => none)

/-- Model of Pipeline.Run: connect the source (failure is fatal), connect
the sink (failure is fatal), then stream the events through the transform
stage into the sink while the two error streams are drained into logging;
after both streams end Run returns nil. The ok result carries the list of
events handed to Sink.Write; the error stream contents never influence the
result. -/
def pipelineRun (sourceConnect sinkConnect : Except String Unit) (events : List Event)
    (sourceErrors sinkErrors : List String)
    (tr : Option (Event → Event × Option String)) : Except String (List Event) :=
  match sourceConnect with
  | .error e => .error ("failed to connect source: " ++ e)
  | .ok _ =>
    match sinkConnect with
    | .error e => .error ("failed to connect sink: " ++ e)
    | .ok _ => .ok (transformEventList tr events)

/-- Model of source.InitialSyncConfig. -/
structure InitialSyncConfig where
  enabled : Bool
  timestampField : String
  fromTimestamp : Option Value
  batchSize : Int

/-- Model of the backfill decision block of performInitialSync
(main.go lines 154 to 183): force wins and syncs everything; with a
timestamp field configured the sink emptiness is checked (a check failure
is fatal); an empty sink, a failed or null cursor lookup and a missing
timestamp field all yield a full sync; only a non empty sink with a
successful non null cursor lookup yields an incremental start point. -/
def syncDecision (force : Bool) (timestampField : String)
    (isEmpty : Except String Bool) (latestTs : Except String (Option Value)) :
    Except String (Option Value) :=
  if force then .ok none
  else if timestampField ≠ "" then
    match isEmpty with
    | .error e => .error ("failed to check if sink table is empty: " ++ e)
    | .ok true => .ok none
    | .ok false =>
      match latestTs with
      | .error _ => .ok none
      | .ok (some ts) => .ok (some ts)
      | .ok none => .ok none
  else .ok none

/-- Model of the sync configuration assembly of performInitialSync
(main.go lines 186 to 195), including the batch size default. -/
def buildSyncConfig (timestampField : String) (fromTimestamp : Option Value) (batchSize : Int) :
    InitialSyncConfig :=
  let cfg : InitialSyncConfig :=
    { enabled := true, timestampField := timestampField,
      fromTimestamp := fromTimestamp, batchSize := batchSize }
  if cfg.batchSize ≤ 0 then { cfg with batchSize := 1000 } else cfg

/-- Shape of the find query PerformInitialSync issues: an optional
inclusive lower bound filter on one field, an optional ascending sort
field, and the cursor batch size. -/
structure FindQuery where
  filterGte : Option (String × Value)
  sortAsc : Option String
  batchSize : Int

/-- Model of the query construction of MongoDBSource.PerformInitialSync
(mongodb.go lines 174 to 193): the filter field gte bound is added only
when both the timestamp field and the from timestamp are set, the batch
size defaults to 1000 when not positive, and the ascending sort on the
timestamp field is set whenever the field is configured. -/
def buildInitialSyncQuery (config : InitialSyncConfig) : FindQuery :=
  let filter : Option (String × Value) :=
    match config.fromTimestamp with
    | some ts => if config.timestampField ≠ "" then some (config.timestampField, ts) else none
    | none => none
  let batchSize := if config.batchSize ≤ 0 then 1000 else config.batchSize
  let sort : Option String :=
    if config.timestampField ≠ "" then some config.timestampField else none
  { filterGte := filter, sortAsc := sort, batchSize := batchSize }

/-- Rank of a value constructor, the first component of the modelled total
document order used for sorting. -/
def valueRank : Value → Nat
  | .vNull => 0
  | .vInt _ => 1
  | .vFloat _ => 2
  | .vStr _ => 3
  | .vBool _ => 4
  | .vTime _ _ _ _ _ _ _ => 5
  | .vMap _ => 6

/-- Encodes the time components into one integer for comparison. -/
def timeKey (y mo d h mi se : Nat) (off : Int) : Int :=
  (((((((y : Int) * 13 + mo) * 32 + d) * 24 + h) * 60 + mi) * 60 + se) * 4000) + off

/-- Total order on modelled values, standing in for the total order the
database applies to the cursor field when sorting: values are compared by
constructor rank and then within one constructor. -/
def valueLeB (a b : Value) : Bool :=
  if valueRank a = valueRank b then
    match a, b with
    | .vNull, .vNull => true
    | .vInt n, .vInt m => decide (n ≤ m)
    | .vFloat p, .vFloat q => decide (p ≤ q)
    | .vStr s, .vStr t => decide (s ≤ t)
    | .vBool x, .vBool y => decide (x ≤ y)
    | .vTime y1 mo1 d1 h1 mi1 s1 o1, .vTime y2 mo2 d2 h2 mi2 s2 o2 =>
      decide (timeKey y1 mo1 d1 h1 mi1 s1 o1 ≤ timeKey y2 mo2 d2 h2 mi2 s2 o2)
    | .vMap m1, .vMap m2 => decide (m1.length ≤ m2.length)
    | _, _ => true
  else decide (valueRank a < valueRank b)

/-- Reads the compared field of a document, with absent fields ordered
first as the database orders missing values lowest. -/
def docFieldOrNull (doc : List (String × Value)) (field : String) : Value :=
  match assocLookup doc field with
  | some v => v
  | none => .vNull

/-- Whether a document satisfies the inclusive gte filter on a field; a
document without the field does not match. -/
def matchesGte (field : String) (bound : Value) (doc : List (String × Value)) : Bool :=
  match assocLookup doc field with
  | some v => valueLeB bound v
  | none => false

/-- Insertion into a list sorted by a boolean order. -/
def insertSortedBy {α : Type} (le : α → α → Bool) (x : α) : List α → List α
  | [] => [x]
  | y :: rest => if le x y then x :: y :: rest else y :: insertSortedBy le x rest

/-- Insertion sort by a boolean order, the model of the database sort. -/
def sortByB {α : Type} (le : α → α → Bool) : List α → List α
  | [] => []
  | x :: rest => insertSortedBy le x (sortByB le rest)

/-- Denotation of the issued find query over a collection snapshot: the
documents satisfying the filter, sorted ascending by the sort field when
one is set. -/
def runFind (docs : List (List (String × Value))) (q : FindQuery) :
    List (List (String × Value)) :=
  let filtered :=
    match q.filterGte with
    | none => docs
    | some (f, bound) => docs.filter (matchesGte f bound)
  match q.sortAsc with
  | none => filtered
  | some f => sortByB (fun d1 d2 => valueLeB (docFieldOrNull d1 f) (docFieldOrNull d2 f)) filtered

/-- Model of the error collection of performInitialSync (main.go lines 219
to 249): the source and sink error streams of the backfill are drained
and any emitted error marks the whole sync as failed. -/
def backfillErrorOccurred (sourceErrors sinkErrors : List String) : Bool :=
  !sourceErrors.isEmpty || !sinkErrors.isEmpty

/-- Model of performInitialSync after both connects succeed: run the
decision phase, stream the backfill events through the transformer into
the sink, drain both error streams, and fail when any error occurred. The
ok result carries the events handed to the sink write. -/
def performInitialSyncModel (force : Bool) (timestampField : String)
    (isEmpty : Except String Bool) (latestTs : Except String (Option Value))
    (events : List Event) (sourceErrors sinkErrors : List String)
    (tr : Option (Event → Event × Option String)) : Except String (List Event) :=
  match syncDecision force timestampField isEmpty latestTs with
  | .error e => .error e
  | .ok _ =>
    let written := transformEventList tr events
    if backfillErrorOccurred sourceErrors sinkErrors then
      .error "errors occurred during initial sync"
    else .ok written

/-- Outcome of the startup sequence of main (main.go lines 112 to 127):
either the process aborts before live capture because the initial sync
failed, or the pipeline Run for live capture is started. -/
inductive StartupOutcome where
  | abortedBeforeRun (msg : String)
  | ranPipeline (runResult : Except String (List Event))

/-- Model of the startup sequencing of main: when initial sync is enabled
a failed sync is fatal and live capture never starts; otherwise the
pipeline Run is started after the sync (or directly when sync is off). -/
def mainStartup (initialSyncEnabled : Bool) (syncResult : Except String (List Event))
    (runResult : Except String (List Event)) : StartupOutcome :=
  if initialSyncEnabled then
    match syncResult with
    | .error e => .abortedBeforeRun ("Initial sync failed: " ++ e)
    | .ok _ => .ranPipeline runResult
  else .ranPipeline runResult

/-!
Shared lemmas about the embedded definitions.
-/

theorem buildExtractors_all_empty (ms : List FieldMapping) (acc : List (String × RE))
    (h : ∀ m ∈ ms, m.extract = "") : buildExtractors ms acc = .ok acc := by
  induction ms generalizing acc with
  | nil => rfl
  | cons m rest ih =>
    have h1 : m.extract = "" := h m (List.mem_cons_self m rest)
    have h2 : ∀ m2 ∈ rest, m2.extract = "" := fun m2 hm2 => h m2 (List.mem_cons_of_mem m hm2)
    simp [buildExtractors, h1, ih acc h2]

theorem assocLookup_insert_self {α : Type} (m : List (String × α)) (k : String) (v : α) :
    assocLookup (assocInsert m k v) k = some v := by
  induction m with
  | nil => simp [assocInsert, assocLookup]
  | cons p rest ih =>
    by_cases h : p.1 = k
    · simp [assocInsert, assocLookup, h]
    · simp [assocInsert, assocLookup, h, ih]

theorem assocLookup_insert_ne {α : Type} (m : List (String × α)) (k k2 : String) (v : α)
    (h : k2 ≠ k) : assocLookup (assocInsert m k2 v) k = assocLookup m k := by
  induction m with
  | nil => simp [assocInsert, assocLookup, h]
  | cons p rest ih =>
    by_cases hp : p.1 = k2
    · simp [assocInsert, assocLookup, hp, h]
    · simp only [assocInsert, hp, if_false]
      by_cases hk : p.1 = k
      · simp [assocLookup, hk]
      · simp [assocLookup, hk, ih]

theorem foldl_includeStep_no_key (cfg : FieldMapperConfig) (l : List (String × Value))
    (nd : List (String × Value)) (k : String) (h : ∀ p ∈ l, p.1 ≠ k) :
    assocLookup (l.foldl (includeStep cfg) nd) k = assocLookup nd k := by
  induction l generalizing nd with
  | nil => rfl
  | cons p rest ih =>
    have hp : p.1 ≠ k := h p (List.mem_cons_self p rest)
    have hrest : ∀ p2 ∈ rest, p2.1 ≠ k := fun p2 hp2 => h p2 (List.mem_cons_of_mem p hp2)
    rw [List.foldl_cons, ih _ hrest]
    unfold includeStep
    split
    · rfl
    · exact assocLookup_insert_ne nd k p.1 p.2 hp

theorem foldl_includeStep_wins (cfg : FieldMapperConfig) (data : List (String × Value))
    (nd : List (String × Value)) (k : String) (v : Value)
    (hnodup : (data.map Prod.fst).Nodup)
    (hlook : assocLookup data k = some v)
    (hmap : cfg.mappings.any (fun m => m.source = k) = false)
    (hexc : cfg.excludeFields.any (fun f => f = k) = false) :
    assocLookup (data.foldl (includeStep cfg) nd) k = some v := by
  induction data generalizing nd with
  | nil => simp [assocLookup] at hlook
  | cons p rest ih =>
    rw [List.map_cons, List.nodup_cons] at hnodup
    by_cases hp : p.1 = k
    · have hv : p.2 = v := by
        simpa [assocLookup, hp] using hlook
      have hnomem : ∀ p2 ∈ rest, p2.1 ≠ k := by
        intro p2 hp2 hk
        exact hnodup.1 (hp ▸ hk ▸ List.mem_map_of_mem Prod.fst hp2)
      rw [List.foldl_cons, foldl_includeStep_no_key cfg rest _ k hnomem]
      unfold includeStep
      rw [hp, hmap, hexc]
      simp only [Bool.or_self, if_false, Bool.false_eq_true]
      rw [hv]
      exact assocLookup_insert_self nd k v
    · have hlook2 : assocLookup rest k = some v := by
        simpa [assocLookup, hp] using hlook
      rw [List.foldl_cons]
      exact ih _ hnodup.2 hlook2

theorem transformEventList_some (tr : Event → Event × Option String) (events : List Event) :
    transformEventList (some tr) events =
      events.filterMap (fun e =>
        match tr e with
        | (e2, none) => some e2
        | (_, some _) => none) := rfl

/-!
Claim C10.
-/

/-- C10: for every format string outside the recognized set, formatValue
returns the input value unchanged with no error, and unknown formats are
not rejected at construction either: a configuration without extract
patterns always constructs, whatever its format strings. -/
theorem formatValue_unknown_format_identity :
    (∀ (v : Value) (format : String),
      format ∉ (["string", "int", "float", "date", "datetime", "uppercase",
        "lowercase", "trim", "titlecase", "bool", "boolean"] : List String) →
      formatValue v format = .ok v) ∧
    (∀ cfg : FieldMapperConfig, (∀ m ∈ cfg.mappings, m.extract = "") →
      newFieldMapper cfg = .ok { config := cfg, extractors := [] }) := by
  constructor
  · intro v format h
    by_cases h0 : format = ""
    · simp [formatValue, h0]
    · simp only [List.mem_cons, List.not_mem_nil, or_false, not_or] at h
      obtain ⟨h1, h2, h3, h4, h5, h6, h7, h8, h9, h10, h11⟩ := h
      simp [formatValue, h0, h1, h2, h3, h4, h5, h6, h7, h8, h9, h10, h11]
  · intro cfg h
    simp [newFieldMapper, buildExtractors_all_empty cfg.mappings [] h]

def cfgC10 : FieldMapperConfig :=
  { mappings := [
      { source := "age", destination := "age_num", format := "toInt",
        default := "", required := false, extract := "", nestedPath := "" }],
    includeAll := false, excludeFields := [], strictMode := false }

theorem formatValue_unknown_format_identity_witness :
    formatValue (.vStr "42") "toInt" = .ok (.vStr "42") ∧
    newFieldMapper cfgC10 = .ok { config := cfgC10, extractors := [] } :=
  ⟨formatValue_unknown_format_identity.1 (.vStr "42") "toInt" (by decide),
   formatValue_unknown_format_identity.2 cfgC10 (by
     intro m hm
     rw [List.mem_singleton.mp hm])⟩

/-!
Claim C4.
-/

/-- C4: whenever Transform reports an error (all error returns are strict
mode aborts: a missing or null required field, a failed extraction on a
required field, or a formatting error), the returned event is the original
event, with its data mapping untouched; no partially built output is ever
installed on the error path. -/
theorem transform_error_returns_unmodified_event :
    ∀ (fm : FieldMapper) (event : Event) (msg : String),
      (fieldMapperTransform fm event).2 = some msg →
      (fieldMapperTransform fm event).1 = event := by
  intro fm event msg h
  unfold fieldMapperTransform at h ⊢
  cases happ : applyMappings fm.config fm.extractors event.data fm.config.mappings [] with
  | error e => simp [happ]
  | ok nd => rw [happ] at h; simp at h

def cfgC4 : FieldMapperConfig :=
  { mappings := [
      { source := "id", destination := "id", format := "", default := "",
        required := true, extract := "", nestedPath := "" },
      { source := "name", destination := "name", format := "", default := "",
        required := true, extract := "", nestedPath := "" }],
    includeAll := false, excludeFields := [], strictMode := true }

def fmC4 : FieldMapper := { config := cfgC4, extractors := [] }

def evC4 : Event :=
  { id := "1", timestamp := 0, operation := "insert", source := "mongodb",
    database := "db", collection := "users",
    data := [("id", .vStr "123")], before := none }

theorem transform_error_returns_unmodified_event_witness :
    (fieldMapperTransform fmC4 evC4).2 = some "required field name is missing" ∧
    (fieldMapperTransform fmC4 evC4).1 = evC4 :=
  ⟨rfl, transform_error_returns_unmodified_event fmC4 evC4 "required field name is missing" rfl⟩

/-!
Claim C8.
-/

/-- C8: Pipeline.Run returns an error exactly when the source connect or
the sink connect fails; when both succeed it runs the streams to
exhaustion and returns the ok outcome carrying the events handed to the
sink, however many read, write or transform errors the streams held. -/
theorem pipelineRun_error_iff_connect_failure :
    ∀ (sourceConnect sinkConnect : Except String Unit) (events : List Event)
      (sourceErrors sinkErrors : List String) (tr : Option (Event → Event × Option String)),
      ((∃ e, pipelineRun sourceConnect sinkConnect events sourceErrors sinkErrors tr = .error e) ↔
        ((∃ e, sourceConnect = .error e) ∨ (∃ e, sinkConnect = .error e))) ∧
      pipelineRun (.ok ()) (.ok ()) events sourceErrors sinkErrors tr =
        .ok (transformEventList tr events) := by
  intro sc kc events se ke tr
  constructor
  · cases sc <;> cases kc <;> simp [pipelineRun]
  · rfl

/-!
Claim C9.
-/

/-- C9: an event whose transformation reports an error is dropped by the
pipeline engine: it is never handed to the sink, the surrounding events
are still processed in order, and the run still ends with the ok result. -/
theorem transform_error_drops_event :
    ∀ (tr : Event → Event × Option String) (pre post : List Event) (event : Event)
      (msg : String) (sourceErrors sinkErrors : List String),
      (tr event).2 = some msg →
      pipelineRun (.ok ()) (.ok ()) (pre ++ event :: post) sourceErrors sinkErrors (some tr) =
        .ok (transformEventList (some tr) pre ++ transformEventList (some tr) post) := by
  intro tr pre post event msg se ke h
  simp only [pipelineRun, transformEventList_some]
  rw [List.filterMap_append]
  congr 1
  rw [List.filterMap_cons]
  cases htr : tr event with
  | mk e2 o =>
    rw [htr] at h
    simp only at h
    subst h
    simp [htr]

def evGoodA : Event :=
  { id := "a", timestamp := 0, operation := "insert", source := "mongodb",
    database := "db", collection := "users",
    data := [("id", .vStr "1"), ("name", .vStr "Ada")], before := none }

def evGoodB : Event :=
  { id := "b", timestamp := 0, operation := "insert", source := "mongodb",
    database := "db", collection := "users",
    data := [("id", .vStr "2"), ("name", .vStr "Bob")], before := none }

theorem transform_error_drops_event_witness :
    (fieldMapperTransform fmC4 evC4).2 = some "required field name is missing" ∧
    pipelineRun (.ok ()) (.ok ()) ([evGoodA] ++ evC4 :: [evGoodB]) [] []
        (some (fieldMapperTransform fmC4)) =
      .ok (transformEventList (some (fieldMapperTransform fmC4)) [evGoodA] ++
           transformEventList (some (fieldMapperTransform fmC4)) [evGoodB]) :=
  ⟨rfl, transform_error_drops_event (fieldMapperTransform fmC4) [evGoodA] [evGoodB] evC4
    "required field name is missing" [] [] rfl⟩

/-!
Claim C3. The code accepts every strconv.ParseBool literal, which
includes the single letter forms t, T, f and F; those are outside the set
the claim describes, so the claim as stated is refuted and an amended
characterization of the accepted set is proved.
-/

/-- Acceptance set the claim ascribes to the bool format, following the
words of the spec: canonical true and false, plus case insensitive yes, y,
1, no, n and 0. -/
def claimBoolAccepts (s : String) : Bool :=
  s == "true" || s == "false" ||
    (["yes", "y", "1", "no", "n", "0"] : List String).contains (goToLower s)

/-- C3 counterexample: the input t is outside the acceptance set stated by
the claim, yet the bool format converts it successfully (strconv.ParseBool
accepts it), so the claim that every other input yields a formatting error
is false at this input. -/
theorem formatValue_bool_claim_counterexample :
    formatValue (.vStr "t") "bool" = .ok (.vBool true) ∧ claimBoolAccepts "t" = false :=
  ⟨rfl, rfl⟩

theorem parseBoolGo_eq_some_true (s : String) :
    parseBoolGo s = some true ↔
      (s = "1" ∨ s = "t" ∨ s = "T" ∨ s = "true" ∨ s = "TRUE" ∨ s = "True") := by
  unfold parseBoolGo
  split
  · rename_i h
    simp [h]
  · split
    · rename_i h1 h2
      simp only [Option.some.injEq, Bool.false_eq_true, false_iff]
      exact h1
    · rename_i h1 h2
      simp only [reduceCtorEq, false_iff]
      exact h1

theorem parseBoolGo_eq_some_false (s : String) :
    parseBoolGo s = some false ↔
      (s = "0" ∨ s = "f" ∨ s = "F" ∨ s = "false" ∨ s = "FALSE" ∨ s = "False") := by
  unfold parseBoolGo
  split
  · rename_i h
    simp only [Option.some.injEq, Bool.true_eq_false, false_iff]
    intro hb
    rcases h with rfl | rfl | rfl | rfl | rfl | rfl <;>
      rcases hb with h2 | h2 | h2 | h2 | h2 | h2 <;> simp_all
  · split
    · rename_i h1 h2
      simp [h2]
    · rename_i h1 h2
      simp only [reduceCtorEq, false_iff]
      exact h2

theorem parseBoolGo_eq_none (s : String) :
    parseBoolGo s = none ↔
      (¬(s = "1" ∨ s = "t" ∨ s = "T" ∨ s = "true" ∨ s = "TRUE" ∨ s = "True") ∧
       ¬(s = "0" ∨ s = "f" ∨ s = "F" ∨ s = "false" ∨ s = "FALSE" ∨ s = "False")) := by
  unfold parseBoolGo
  split
  · rename_i h
    simp [h]
  · split
    · rename_i h1 h2
      simp [h2]
    · rename_i h1 h2
      simp [h1, h2]

/-- C3 amended: the bool and boolean formats succeed exactly on the twelve
strconv.ParseBool literals plus any string whose trimmed and lowercased
form is yes, y, 1, no or n or 0; the true literals and the relaxed yes
forms give true, the false literals and the relaxed no forms give false;
everything else is a formatting error. -/
theorem formatValue_bool_characterization :
    ∀ s : String,
      ((formatValue (.vStr s) "bool").isOk = true ↔
        (s ∈ (["1", "t", "T", "true", "TRUE", "True",
               "0", "f", "F", "false", "FALSE", "False"] : List String) ∨
         goToLower (goTrimSpace s) ∈ (["yes", "y", "1", "no", "n", "0"] : List String))) ∧
      (formatValue (.vStr s) "bool" = .ok (.vBool true) ↔
        (s ∈ (["1", "t", "T", "true", "TRUE", "True"] : List String) ∨
         (s ∉ (["1", "t", "T", "true", "TRUE", "True",
                "0", "f", "F", "false", "FALSE", "False"] : List String) ∧
          goToLower (goTrimSpace s) ∈ (["yes", "y", "1"] : List String)))) ∧
      (formatValue (.vStr s) "bool" = .ok (.vBool false) ↔
        (s ∈ (["0", "f", "F", "false", "FALSE", "False"] : List String) ∨
         (s ∉ (["1", "t", "T", "true", "TRUE", "True",
                "0", "f", "F", "false", "FALSE", "False"] : List String) ∧
          goToLower (goTrimSpace s) ∈ (["no", "n", "0"] : List String)))) := by
  intro s
  have hfv : formatValue (.vStr s) "bool" =
      (match parseBoolGo s with
       | some b => .ok (.vBool b)
       | none =>
         if goToLower (goTrimSpace s) = "yes" ∨ goToLower (goTrimSpace s) = "y" ∨
             goToLower (goTrimSpace s) = "1" then
           .ok (.vBool true)
         else if goToLower (goTrimSpace s) = "no" ∨ goToLower (goTrimSpace s) = "n" ∨
             goToLower (goTrimSpace s) = "0" then
           .ok (.vBool false)
         else .error ("cannot convert to bool: " ++ s)) := by
    simp [formatValue, goSprintV]
  rw [hfv]
  cases hpb : parseBoolGo s with
  | some b =>
    cases b with
    | true =>
      have hmem := (parseBoolGo_eq_some_true s).mp hpb
      rcases hmem with rfl | rfl | rfl | rfl | rfl | rfl <;>
        refine ⟨?_, ?_, ?_⟩ <;> simp [Except.isOk, Except.toBool]
    | false =>
      have hmem := (parseBoolGo_eq_some_false s).mp hpb
      rcases hmem with rfl | rfl | rfl | rfl | rfl | rfl <;>
        refine ⟨?_, ?_, ?_⟩ <;> simp [Except.isOk, Except.toBool]
  | none =>
    have hmem := (parseBoolGo_eq_none s).mp hpb
    obtain ⟨hA, hB⟩ := hmem
    simp only [not_or] at hA hB
    by_cases hy : goToLower (goTrimSpace s) = "yes" ∨ goToLower (goTrimSpace s) = "y" ∨
        goToLower (goTrimSpace s) = "1"
    · rw [if_pos hy]
      rcases hy with h | h | h <;> refine ⟨?_, ?_, ?_⟩ <;> simp_all [Except.isOk, Except.toBool]
    · rw [if_neg hy]
      by_cases hn : goToLower (goTrimSpace s) = "no" ∨ goToLower (goTrimSpace s) = "n" ∨
          goToLower (goTrimSpace s) = "0"
      · rw [if_pos hn]
        rcases hn with h | h | h <;> refine ⟨?_, ?_, ?_⟩ <;> simp_all [Except.isOk, Except.toBool]
      · rw [if_neg hn]
        simp only [not_or] at hy hn
        refine ⟨?_, ?_, ?_⟩ <;> simp_all [Except.isOk, Except.toBool]

/-!
Lemmas about the modelled database sort.
-/

theorem perm_insertSortedBy {α : Type} (le : α → α → Bool) (x : α) (l : List α) :
    (insertSortedBy le x l).Perm (x :: l) := by
  induction l with
  | nil => exact List.Perm.refl _
  | cons y rest ih =>
    unfold insertSortedBy
    split
    · exact List.Perm.refl _
    · exact (ih.cons y).trans (List.Perm.swap x y rest)

theorem perm_sortByB {α : Type} (le : α → α → Bool) (l : List α) :
    (sortByB le l).Perm l := by
  induction l with
  | nil => exact List.Perm.refl _
  | cons x rest ih =>
    exact (perm_insertSortedBy le x (sortByB le rest)).trans (ih.cons x)

theorem head_insertSortedBy {α : Type} (le : α → α → Bool) (x : α) (l : List α) :
    (insertSortedBy le x l).head? = some x ∨ (insertSortedBy le x l).head? = l.head? := by
  cases l with
  | nil => left; rfl
  | cons y rest =>
    unfold insertSortedBy
    split
    · left; rfl
    · right; rfl

theorem chain_insertSortedBy {α : Type} (le : α → α → Bool)
    (htot : ∀ a b, le a b = true ∨ le b a = true) (x : α) (l : List α)
    (hl : l.Chain' (fun a b => le a b = true)) :
    (insertSortedBy le x l).Chain' (fun a b => le a b = true) := by
  induction l with
  | nil => simp [insertSortedBy]
  | cons y rest ih =>
    unfold insertSortedBy
    split
    · rename_i hxy
      exact (List.chain'_cons).mpr ⟨hxy, hl⟩
    · rename_i hxy
      have hyx : le y x = true := by
        rcases htot x y with h | h
        · exact absurd h (by simp [hxy])
        · exact h
      rw [List.chain'_cons'] at hl
      have htail := ih hl.2
      rw [List.chain'_cons']
      refine ⟨?_, htail⟩
      intro b hb
      rcases head_insertSortedBy le x rest with hh | hh
      · rw [hh] at hb
        cases hb
        exact hyx
      · rw [hh] at hb
        exact hl.1 b hb

theorem chain_sortByB {α : Type} (le : α → α → Bool)
    (htot : ∀ a b, le a b = true ∨ le b a = true) (l : List α) :
    (sortByB le l).Chain' (fun a b => le a b = true) := by
  induction l with
  | nil => simp [sortByB]
  | cons x rest ih => exact chain_insertSortedBy le htot x (sortByB le rest) ih

theorem valueLeB_total (a b : Value) : valueLeB a b = true ∨ valueLeB b a = true := by
  unfold valueLeB
  by_cases h : valueRank a = valueRank b
  · rw [if_pos h, if_pos h.symm]
    cases a <;> cases b <;>
      simp_all [valueRank, decide_eq_true_eq, Bool.not_eq_false, Bool.not_eq_true] <;>
      first
        | omega
        | exact le_total _ _
        | tauto
  · rw [if_neg h, if_neg (fun h2 => h h2.symm)]
    simp only [decide_eq_true_eq]
    omega

/-!
Claim C5.
-/

/-- C5: when the sink emptiness check answers true, the backfill decision
is a full sync whatever the force flag and the configured timestamp field:
the from cursor stays unset, the issued read carries no cursor filter, and
the read returns every document of the collection snapshot (as a
permutation when the sort is applied). -/
theorem emptySink_always_full_backfill :
    ∀ (force : Bool) (timestampField : String) (latestTs : Except String (Option Value))
      (batchSize : Int) (docs : List (List (String × Value))),
      syncDecision force timestampField (.ok true) latestTs = .ok none ∧
      (buildInitialSyncQuery (buildSyncConfig timestampField none batchSize)).filterGte = none ∧
      (runFind docs (buildInitialSyncQuery (buildSyncConfig timestampField none batchSize))).Perm
        docs := by
  intro force tsf lt bs docs
  refine ⟨?_, ?_, ?_⟩
  · by_cases hf : force <;> by_cases ht : tsf = "" <;> simp [syncDecision, hf, ht]
  · by_cases hbs : bs ≤ 0 <;> simp [buildSyncConfig, buildInitialSyncQuery, hbs]
  · simp only [buildSyncConfig, buildInitialSyncQuery, runFind]
    by_cases hbs : bs ≤ 0 <;> by_cases ht : tsf = "" <;>
      simp [hbs, ht, perm_sortByB, List.Perm.refl]

/-!
Claim C6.
-/

/-- C6: for a non empty sink with a configured cursor field and a
successful non null cursor lookup, the decision is incremental from that
cursor, the issued read filters on cursorField gte cursor inclusively,
sorts ascending on that field, and uses the configured batch size with the
1000 default for non positive values; every returned document satisfies
the inclusive bound and the returned documents are in ascending order of
the field. -/
theorem nonEmptySink_cursor_incremental_backfill :
    ∀ (timestampField : String) (ts : Value) (batchSize : Int)
      (docs : List (List (String × Value))),
      timestampField ≠ "" →
      syncDecision false timestampField (.ok false) (.ok (some ts)) = .ok (some ts) ∧
      (buildInitialSyncQuery (buildSyncConfig timestampField (some ts) batchSize)).filterGte =
        some (timestampField, ts) ∧
      (buildInitialSyncQuery (buildSyncConfig timestampField (some ts) batchSize)).sortAsc =
        some timestampField ∧
      (buildInitialSyncQuery (buildSyncConfig timestampField (some ts) batchSize)).batchSize =
        (if batchSize ≤ 0 then 1000 else batchSize) ∧
      (∀ d ∈ runFind docs (buildInitialSyncQuery (buildSyncConfig timestampField (some ts) batchSize)),
        matchesGte timestampField ts d = true) ∧
      (runFind docs (buildInitialSyncQuery (buildSyncConfig timestampField (some ts) batchSize))).Chain'
        (fun d1 d2 =>
          valueLeB (docFieldOrNull d1 timestampField) (docFieldOrNull d2 timestampField) = true) := by
  intro tsf ts bs docs h
  have hq : buildInitialSyncQuery (buildSyncConfig tsf (some ts) bs) =
      { filterGte := some (tsf, ts), sortAsc := some tsf,
        batchSize := if bs ≤ 0 then 1000 else bs } := by
    simp only [buildSyncConfig, buildInitialSyncQuery]
    by_cases hbs : bs ≤ 0 <;> simp [hbs, h]
  refine ⟨?_, ?_, ?_, ?_, ?_, ?_⟩
  · simp [syncDecision, h]
  · rw [hq]
  · rw [hq]
  · rw [hq]
  · intro d hd
    rw [hq] at hd
    simp only [runFind] at hd
    have hmem : d ∈ docs.filter (matchesGte tsf ts) :=
      ((perm_sortByB _ _).mem_iff).mp hd
    exact List.of_mem_filter hmem
  · rw [hq]
    simp only [runFind]
    exact chain_sortByB _ (fun d1 d2 => valueLeB_total _ _) _

theorem nonEmptySink_cursor_incremental_backfill_witness :
    ("updated_at" : String) ≠ "" ∧
    syncDecision false "updated_at" (.ok false) (.ok (some (.vInt 7))) = .ok (some (.vInt 7)) ∧
    (buildInitialSyncQuery (buildSyncConfig "updated_at" (some (.vInt 7)) 0)).filterGte =
      some ("updated_at", .vInt 7) ∧
    (buildInitialSyncQuery (buildSyncConfig "updated_at" (some (.vInt 7)) 0)).batchSize = 1000 :=
  have h := nonEmptySink_cursor_incremental_backfill "updated_at" (.vInt 7) 0 [] (by decide)
  ⟨by decide, h.1, h.2.1, by rw [h.2.2.2.1]; norm_num⟩

/-!
Claim C7.
-/

/-- C7: once the decision phase has succeeded, the backfill reports an
error exactly when at least one error was emitted on the source or sink
error stream of the backfill; live capture is started by main exactly when
no such error occurred, and a failed backfill aborts the process before
Pipeline.Run. -/
theorem backfill_errors_block_live_capture :
    ∀ (force : Bool) (timestampField : String) (isEmpty : Except String Bool)
      (latestTs : Except String (Option Value)) (events : List Event)
      (sourceErrors sinkErrors : List String)
      (tr : Option (Event → Event × Option String)) (ft : Option Value),
      syncDecision force timestampField isEmpty latestTs = .ok ft →
      ((∃ e, performInitialSyncModel force timestampField isEmpty latestTs events
          sourceErrors sinkErrors tr = .error e) ↔
        (sourceErrors ≠ [] ∨ sinkErrors ≠ [])) ∧
      (∀ runResult : Except String (List Event),
        mainStartup true (performInitialSyncModel force timestampField isEmpty latestTs events
            sourceErrors sinkErrors tr) runResult =
          (if sourceErrors = [] ∧ sinkErrors = [] then .ranPipeline runResult
           else .abortedBeforeRun "Initial sync failed: errors occurred during initial sync")) := by
  intro force tsf ie lt events se ke tr ft hdec
  have hm : performInitialSyncModel force tsf ie lt events se ke tr =
      (if backfillErrorOccurred se ke then .error "errors occurred during initial sync"
       else .ok (transformEventList tr events)) := by
    unfold performInitialSyncModel
    rw [hdec]
  have hocc : backfillErrorOccurred se ke = true ↔ (se ≠ [] ∨ ke ≠ []) := by
    unfold backfillErrorOccurred
    cases se <;> cases ke <;> simp
  constructor
  · rw [hm]
    by_cases h : backfillErrorOccurred se ke = true
    · simp only [h, if_true]
      simp [hocc.mp h]
    · have h2 : ¬(se ≠ [] ∨ ke ≠ []) := fun hc => h (hocc.mpr hc)
      simp only [h, if_false, Bool.false_eq_true]
      simp [h2]
  · intro runResult
    rw [hm]
    by_cases h : backfillErrorOccurred se ke = true
    · have h2 := hocc.mp h
      rw [if_pos h]
      rw [if_neg (by tauto)]
      rfl
    · have h2 : ¬(se ≠ [] ∨ ke ≠ []) := fun hc => h (hocc.mpr hc)
      rw [if_neg (by simp [h])]
      rw [if_pos (by tauto)]
      rfl

theorem backfill_errors_block_live_capture_witness :
    syncDecision false "" (.ok true) (.ok none) = .ok none ∧
    (∃ e, performInitialSyncModel false "" (.ok true) (.ok none) [] ["read failed"] [] none =
      .error e) ∧
    mainStartup true
        (performInitialSyncModel false "" (.ok true) (.ok none) [] ["read failed"] [] none)
        (.ok []) =
      .abortedBeforeRun "Initial sync failed: errors occurred during initial sync" :=
  have h := backfill_errors_block_live_capture false "" (.ok true) (.ok none) [] ["read failed"]
    [] none none rfl
  ⟨rfl, h.1.mpr (Or.inl (by simp)),
    by rw [h.2 (.ok [])]; rw [if_neg (by simp)]⟩

/-!
Claim C2. The unmapped field copy loop writes every original key that is
neither a mapping source nor excluded without checking whether a rule
already produced that key, so it overwrites rule output; the claim as
stated is refuted and the overwrite behaviour is proved in general.
-/

def cfgC2 : FieldMapperConfig :=
  { mappings := [
      { source := "a", destination := "b", format := "", default := "",
        required := false, extract := "", nestedPath := "" }],
    includeAll := true, excludeFields := [], strictMode := false }

def fmC2 : FieldMapper := { config := cfgC2, extractors := [] }

def cfgC2noinc : FieldMapperConfig :=
  { mappings := [
      { source := "a", destination := "b", format := "", default := "",
        required := false, extract := "", nestedPath := "" }],
    includeAll := false, excludeFields := [], strictMode := false }

def fmC2noinc : FieldMapper := { config := cfgC2noinc, extractors := [] }

def evC2 : Event :=
  { id := "1", timestamp := 0, operation := "insert", source := "mongodb",
    database := "db", collection := "users",
    data := [("a", .vStr "x"), ("b", .vStr "orig")], before := none }

/-- C2 counterexample: the rule from source a to destination b produces
the value x for key b (visible with includeAll off), yet with includeAll
on the copy of the original non source, non excluded key b overwrites it:
the final output at b is the original value orig, not the rule value x,
refuting the claim that a rule produced key is never overwritten. -/
theorem includeAll_overwrite_counterexample :
    assocLookup (fieldMapperTransform fmC2noinc evC2).1.data "b" = some (.vStr "x") ∧
    assocLookup (fieldMapperTransform fmC2 evC2).1.data "b" = some (.vStr "orig") ∧
    ¬ (Value.vStr "orig" = Value.vStr "x") :=
  ⟨rfl, rfl, by simp⟩

/-- C2 amended: with includeAll set, for every key of the original data
that is neither any rule source nor excluded, the final output at that key
is the original value — the after rules copy overwrites any value a rule
wrote under that key, rather than skipping keys the rules produced. -/
theorem includeAll_copy_overwrites_rule_output :
    ∀ (fm : FieldMapper) (event : Event) (k : String) (v : Value),
      fm.config.includeAll = true →
      (event.data.map Prod.fst).Nodup →
      assocLookup event.data k = some v →
      fm.config.mappings.any (fun m => m.source = k) = false →
      fm.config.excludeFields.any (fun f => f = k) = false →
      assocLookup (fieldMapperTransform fm event).1.data k = some v := by
  intro fm ev k v hinc hnodup hlook hmap hexc
  unfold fieldMapperTransform
  cases happ : applyMappings fm.config fm.extractors ev.data fm.config.mappings [] with
  | error e => simpa using hlook
  | ok nd =>
    simp only
    unfold includeUnmapped
    rw [hinc]
    simp only [if_true]
    exact foldl_includeStep_wins fm.config ev.data nd k v hnodup hlook hmap hexc

theorem includeAll_copy_overwrites_rule_output_witness :
    fmC2.config.includeAll = true ∧
    (evC2.data.map Prod.fst).Nodup ∧
    assocLookup evC2.data "b" = some (.vStr "orig") ∧
    fmC2.config.mappings.any (fun m => m.source = "b") = false ∧
    fmC2.config.excludeFields.any (fun f => f = "b") = false ∧
    assocLookup (fieldMapperTransform fmC2 evC2).1.data "b" = some (.vStr "orig") :=
  ⟨rfl, by decide, rfl, rfl, rfl,
    includeAll_copy_overwrites_rule_output fmC2 evC2 "b" (.vStr "orig")
      rfl (by decide) rfl rfl rfl⟩

/-!
Claim C1. The extractors map of the field mapper is keyed by the source
field name (fieldmapper.go line 64), so with two rules naming the same
source the pattern compiled last overwrites the one compiled first and
both rules extract with that last pattern. The repository test
TestFieldMapperMultipleExtractFromSameSource asserts the behaviour the
claim states (per rule extractors), so the code contradicts its own test
suite at this input.
-/

def cfgC1 : FieldMapperConfig :=
  { mappings := [
      { source := "email", destination := "username", format := "", default := "",
        required := false, extract := "^([^@]+)@", nestedPath := "" },
      { source := "email", destination := "domain", format := "", default := "",
        required := false, extract := "@(.+)$", nestedPath := "" }],
    includeAll := false, excludeFields := [], strictMode := false }

def evC1 : Event :=
  { id := "1", timestamp := 0, operation := "insert", source := "mongodb",
    database := "db", collection := "users",
    data := [("email", .vStr "john.doe@example.com")], before := none }

/-- C1: on the configuration of the claim (two rules on source email with
the username and domain extract patterns), construction succeeds, but one
Transform call gives both destination keys the value extracted by the
SECOND pattern: username receives example.com, not the claimed john.doe,
because the extractor slot keyed by email was overwritten when the second
rule compiled. This refutes the per rule extractor state the claim (and
the repository test on the same input) describes. -/
theorem sameSource_extractor_collision :
    (newFieldMapper cfgC1).isOk = true ∧
    (newFieldMapper cfgC1).map (fun fm =>
      (assocLookup (fieldMapperTransform fm evC1).1.data "username",
       assocLookup (fieldMapperTransform fm evC1).1.data "domain")) =
      .ok (some (.vStr "example.com"), some (.vStr "example.com")) ∧
    ¬ (some (Value.vStr "example.com") = some (Value.vStr "john.doe")) :=
  ⟨rfl, rfl, by simp⟩

end DataPipe
